/-
Verification of the ZTransfer service layer: a shallow embedding of the code in
src/app (auth/service.py, files/service.py, storage.py, cleanup_worker.py,
deps/security.py) together with theorems settling the frozen claims.

Modelling conventions:
  * timestamps are integers (seconds); datetime.now is impure, so each operation
    takes the current time as an explicit argument, and timedelta(hours = h)
    becomes h * 3600, timedelta(days = d) becomes d * 86400; the code stores and
    compares timezone-aware datetimes, so _ensure_aware is the identity here;
  * the database is explicit state (DB below); the SQLAlchemy session_scope
    commits the whole operation on success and rolls back on an exception, so an
    operation is one state transition returning Except, and the error cases
    return the unchanged state;
  * the token/invite/session/email columns carry unique indexes (models.py), so
    a select(...).where(col == v).one_or_none() is modelled as List.find? on the
    corresponding list;
  * external collaborators (hashlib sha256, hmac, argon2, secrets.token_urlsafe,
    uuid4, strftime) are parameters: digests and password hashing are fields of
    the Ext structure, and random values (tokens, uuid hex) are explicit oracle
    arguments of the operations that draw them;
  * filesystem paths are lists of components; the filesystem is an association
    list from absolute paths to byte lists (directories are not modelled; the
    claims below are about files).
-/
import Mathlib

set_option maxRecDepth 4000
set_option linter.unusedVariables false

namespace ZTransfer

/-- External collaborators of the service layer: content digest
(hashlib.sha256(...).hexdigest() over bytes), hmac.new(secret, msg,
sha256).hexdigest(), argon2 password hashing and verification
(auth/passwords.py), and datetime.strftime of the year-month segment. -/
structure Ext where
  sha256Bytes : List Nat → String
  hmacSha256Hex : String → String → String
  argonHash : String → String
  argonVerify : String → String → Bool
  strftimeYM : Int → String

/-- Bytes of the UTF-8 encoding of a string; the tokens and emails handled here
are ASCII, where code points and bytes coincide. -/
def strBytes (s : String) : List Nat := s.data.map Char.toNat

/-- auth/service.py _hash_token (and the identical files/service.py _hash_token):
sha256 hex digest of the UTF-8 encoded raw token. -/
def hashToken (E : Ext) (rawToken : String) : String := E.sha256Bytes (strBytes rawToken)

/-- config.py Settings, restricted to the fields the service layer reads.
Defaults are the ones declared in config.py; the storage root is the resolved
absolute directory (resolved_storage_dir) as path components. -/
structure Settings where
  storageRoot : List String
  maxSizeBytes : Nat := 5 * 1024 * 1024 * 1024
  retentionDays : Nat := 10
  chunkSize : Nat := 4 * 1024 * 1024
  sessionSecret : String := "change-me"
  sessionTtlHours : Nat := 24 * 7
  inviteTtlHours : Nat := 48

/-- config.py session_cookie_max_age: session lifetime in seconds. -/
def Settings.sessionCookieMaxAge (cfg : Settings) : Nat := cfg.sessionTtlHours * 3600

/-- models.py Invite (the id column is not read by the service layer). -/
structure Invite where
  token : String
  email : String
  role : String
  expiresAt : Int
  usedAt : Option Int
  createdBy : Option Nat
deriving DecidableEq

/-- models.py User; the Optional id of the ORM is always set on persisted rows,
so it is a plain Nat here (store_upload raises MissingUserIdError on the
impossible unpersisted case, which therefore has no counterpart). -/
structure User where
  id : Nat
  email : String
  passwordHash : String
  role : String
  createdAt : Int
  lastLoginAt : Option Int
  isActive : Bool
deriving DecidableEq

/-- models.py Session. -/
structure Session where
  tokenHash : String
  userId : Nat
  createdAt : Int
  expiresAt : Int
  lastSeenAt : Int
  revokedAt : Option Int
  ipAddress : Option String
  userAgent : Option String
deriving DecidableEq

/-- models.py Upload; path is the storage-relative path (store_upload persists
str(destination_path.relative_to(settings.resolved_storage_dir))) kept as
components. -/
structure Upload where
  ownerId : Nat
  downloadToken : String
  deleteTokenHash : String
  path : List String
  originalName : String
  contentType : String
  sizeBytes : Nat
  createdAt : Int
  expiresAt : Int
  sha256 : String
deriving DecidableEq

/-- The database: one list per table, plus the autoincrement counter that hands
out user ids. -/
structure DB where
  invites : List Invite
  users : List User
  sessions : List Session
  uploads : List Upload
  nextUserId : Nat
deriving DecidableEq

def emptyDB : DB := ⟨[], [], [], [], 1⟩

/-- Absolute filesystem path as components. -/
abbrev FPath := List String

/-- The filesystem: an association list from absolute paths to file bytes. -/
abbrev FS := List (FPath × List Nat)

def FS.read (fs : FS) (p : FPath) : Option (List Nat) :=
  (fs.find? (fun e => e.1 == p)).map (fun e => e.2)

def FS.write (fs : FS) (p : FPath) (bs : List Nat) : FS :=
  (p, bs) :: fs.filter (fun e => !(e.1 == p))

def FS.unlink (fs : FS) (p : FPath) : FS :=
  fs.filter (fun e => !(e.1 == p))

/-- Update the first element satisfying p (the ORM mutates the single row the
unique-indexed query returned). -/
def setFirst {α : Type} (p : α → Bool) (f : α → α) : List α → List α
  | [] => []
  | x :: xs => if p x then f x :: xs else x :: setFirst p f xs

/-- auth/service.py error taxonomy: InvalidInvite, InviteAlreadyUsed,
InvalidCredentials, each carrying its message. -/
inductive AuthError where
  | invalidInvite (msg : String)
  | inviteAlreadyUsed (msg : String)
  | invalidCredentials (msg : String)
deriving DecidableEq

/-- Python str.strip with the default whitespace set, written structurally on
the character list so that it evaluates in the kernel. -/
def strTrim (s : String) : String :=
  String.mk (((s.data.dropWhile Char.isWhitespace).reverse.dropWhile Char.isWhitespace).reverse)

/-- Python str.lower on the ASCII range the emails and tokens here use. -/
def strLower (s : String) : String := String.mk (s.data.map Char.toLower)

/-- auth/service.py _normalize_email: strip then lowercase. -/
def normalizeEmail (email : String) : String := strLower (strTrim email)

/-- auth/service.py create_invite. The raw token is the secrets.token_urlsafe
oracle value; the stored row carries only its hash, and the raw value is
returned alongside the record. -/
def create_invite (E : Ext) (cfg : Settings) (db : DB) (email role : String)
    (createdBy : Option Nat) (rawToken : String) (now : Int) : (Invite × String) × DB :=
  let normalizedEmail := normalizeEmail email
  let expiresAt := now + (cfg.inviteTtlHours : Int) * 3600
  let tokenHash := hashToken E rawToken
  let invite : Invite :=
    { token := tokenHash, email := normalizedEmail, role := role,
      expiresAt := expiresAt, usedAt := none, createdBy := createdBy }
  ((invite, rawToken), { db with invites := db.invites ++ [invite] })

/-- auth/service.py consume_invite: look up by token hash, reject missing, used,
expired or email-mismatched invites, reject an existing user for the email,
otherwise create the user and mark the invite used in the same transaction. -/
def consume_invite (E : Ext) (db : DB) (token email password : String) (now : Int) :
    Except AuthError (User × DB) :=
  let tokenHash := hashToken E token
  let normalizedEmail := normalizeEmail email
  match db.invites.find? (fun i => i.token == tokenHash) with
  | none => .error (.invalidInvite "Invite not found")
  | some invite =>
    if invite.usedAt.isSome then .error (.inviteAlreadyUsed "Invite already used")
    else if invite.expiresAt < now then .error (.invalidInvite "Invite expired")
    else if !(normalizeEmail invite.email == normalizedEmail) then
      .error (.invalidInvite "Invite email mismatch")
    else
      match db.users.find? (fun u => u.email == normalizedEmail) with
      | some _ => .error (.inviteAlreadyUsed "User already exists for invite email")
      | none =>
        let user : User :=
          { id := db.nextUserId, email := normalizedEmail,
            passwordHash := E.argonHash password, role := invite.role,
            createdAt := now, lastLoginAt := none, isActive := true }
        .ok (user,
          { db with
            users := db.users ++ [user],
            invites := (setFirst (fun i => i.token == tokenHash)
              (fun i => { i with usedAt := some now }) db.invites),
            nextUserId := db.nextUserId + 1 })

/-- auth/service.py authenticate_user: the three failure cases (absent user,
inactive user, password mismatch) raise InvalidCredentials with the same
message; success stamps last_login_at. -/
def authenticate_user (E : Ext) (db : DB) (email password : String) (now : Int) :
    Except AuthError (User × DB) :=
  let normalizedEmail := normalizeEmail email
  match db.users.find? (fun u => u.email == normalizedEmail) with
  | none => .error (.invalidCredentials "Invalid credentials")
  | some user =>
    if !user.isActive then .error (.invalidCredentials "Invalid credentials")
    else if !(E.argonVerify password user.passwordHash) then
      .error (.invalidCredentials "Invalid credentials")
    else
      .ok ({ user with lastLoginAt := some now },
        { db with users := (setFirst (fun u => u.email == normalizedEmail)
            (fun u => { u with lastLoginAt := some now }) db.users) })

/-- auth/service.py create_session: persist the hashed token with the
computed expiry, return the raw token for the cookie. -/
def create_session (E : Ext) (cfg : Settings) (db : DB) (userId : Nat)
    (ipAddress userAgent : Option String) (rawToken : String) (now : Int) : String × DB :=
  let tokenHash := hashToken E rawToken
  let expiresAt := now + (cfg.sessionCookieMaxAge : Int)
  (rawToken,
    { db with sessions := db.sessions ++
        [{ tokenHash := tokenHash, userId := userId, createdAt := now,
           expiresAt := expiresAt, lastSeenAt := now, revokedAt := none,
           ipAddress := ipAddress, userAgent := userAgent }] })

/-- auth/service.py revoke_session: mark revoked when found, no-op when not. -/
def revoke_session (E : Ext) (db : DB) (rawToken : String) (now : Int) : DB :=
  let tokenHash := hashToken E rawToken
  { db with sessions := (setFirst (fun s => s.tokenHash == tokenHash)
      (fun s => { s with revokedAt := some now }) db.sessions) }

/-- The row filter of the resolve_user_from_session query: token hash matches,
revoked_at is null, expires_at is strictly in the future. -/
def resolvePred (E : Ext) (rawToken : String) (now : Int) (s : Session) : Bool :=
  s.tokenHash == hashToken E rawToken && s.revokedAt.isNone && decide (now < s.expiresAt)

/-- auth/service.py resolve_user_from_session: one joined (Session, User) row
for a non-revoked, unexpired session with the token hash; on a hit, stamp
last_seen_at and return the user, else return no user and leave the state. -/
def resolve_user_from_session (E : Ext) (db : DB) (rawToken : String) (now : Int) :
    Option User × DB :=
  match db.sessions.find? (resolvePred E rawToken now) with
  | none => (none, db)
  | some sessionModel =>
    match db.users.find? (fun u => u.id == sessionModel.userId) with
    | none => (none, db)
    | some user =>
      (some user,
        { db with sessions := (setFirst (resolvePred E rawToken now)
            (fun s => { s with lastSeenAt := now }) db.sessions) })

/-- auth/service.py users_exist. -/
def users_exist (db : DB) : Bool := !db.users.isEmpty

/-- The character class of storage.py _SAFE_CHARS_PATTERN, i.e. the characters
the substitution keeps: A-Z a-z 0-9 dot underscore dash. -/
def isSafeFilenameChar (c : Char) : Bool :=
  c.isAlpha || c.isDigit || c == '.' || c == '_' || c == '-'

/-- storage.py sanitize_filename: empty falls back to "file"; otherwise strip,
turn spaces into underscores, drop every unsafe character, and fall back to
"file" when nothing survives. -/
def sanitize_filename (originalName : String) : String :=
  if originalName == "" then "file"
  else
    let sanitized := String.mk ((strTrim originalName).data.map (fun c => if c == ' ' then '_' else c))
    let sanitized := String.mk (sanitized.data.filter isSafeFilenameChar)
    if sanitized == "" then "file" else sanitized

/-- The per-upload directory storage.py allocate_upload_path builds:
storage root / owner id / year-month / unique uuid4 hex segment. -/
def uploadTargetDir (E : Ext) (cfg : Settings) (ownerId : Nat) (createdAt : Int)
    (uuidHex : String) : FPath :=
  cfg.storageRoot ++ [toString ownerId, E.strftimeYM createdAt, uuidHex]

/-- storage.py allocate_upload_path: the sanitized name inside the per-upload
directory. The uuid4 hex is the randomness oracle argument. -/
def allocate_upload_path (E : Ext) (cfg : Settings) (ownerId : Nat)
    (originalName : String) (createdAt : Int) (uuidHex : String) : FPath :=
  uploadTargetDir E cfg ownerId createdAt uuidHex ++ [sanitize_filename originalName]

/-- POSIX resolution of dot and dot-dot components of a path. -/
def resolvePath (p : FPath) : FPath :=
  p.foldl (fun acc c => if c == "." then acc else if c == ".." then acc.dropLast else acc ++ [c]) []

/-- Whether a path, once resolved, lies strictly inside the given directory. -/
def liesInside (dir p : FPath) : Bool :=
  ((resolvePath p).take dir.length == dir) && decide (dir.length < (resolvePath p).length)

/-- files/service.py UploadTooLargeError. -/
inductive UploadError where
  | uploadTooLarge (msg : String)
deriving DecidableEq

/-- The while loop of files/service.py store_upload: read a chunk (a break on an
empty read), add its length to the running total, abort when the total would
exceed the limit (the overflowing chunk is not written), otherwise append the
chunk to the file and to the absorbed hasher input. Returns none on abort, and
on completion the file bytes, the hasher input and the byte total. -/
def storeLoop (maxSize chunkSize : Nat) (rest fileBytes hashedBytes : List Nat)
    (totalBytes : Nat) : Option (List Nat × List Nat × Nat) :=
  if h : rest.take chunkSize = [] then
    some (fileBytes, hashedBytes, totalBytes)
  else
    let chunk := rest.take chunkSize
    let totalBytes2 := totalBytes + chunk.length
    if maxSize < totalBytes2 then none
    else storeLoop maxSize chunkSize (rest.drop chunkSize)
      (fileBytes ++ chunk) (hashedBytes ++ chunk) totalBytes2
termination_by rest.length
decreasing_by
  have h1 : rest ≠ [] := fun he => h (by simp [he])
  have h2 : chunkSize ≠ 0 := fun he => h (by simp [he])
  simp only [List.length_drop]
  exact Nat.sub_lt (List.length_pos.mpr h1) (Nat.pos_of_ne_zero h2)

/-- Python falsiness of upload_file.filename or "...": None and the empty string
fall back to the default. -/
def orDefault (d : String) : Option String → String
  | none => d
  | some s => if s == "" then d else s

/-- files/service.py store_upload. The uuid hex and the two raw tokens are the
randomness oracle arguments. The abort path unlinks the partial file, so its net
filesystem effect is FS.unlink of the destination; the success path leaves the
full content at the destination, hashes exactly the absorbed bytes, and persists
the Upload row (storing the delete token only as its hash) in one transaction
after the write. -/
def store_upload (E : Ext) (cfg : Settings) (db : DB) (fs : FS) (user : User)
    (filename contentType : Option String) (content : List Nat)
    (uuidHex downloadToken deleteTokenRaw : String) (now : Int) :
    Except UploadError (Upload × String × String) × DB × FS :=
  let destinationPath := allocate_upload_path E cfg user.id (orDefault "file" filename) now uuidHex
  match storeLoop cfg.maxSizeBytes cfg.chunkSize content [] [] 0 with
  | none => (.error (.uploadTooLarge "Upload exceeds maximum allowed size"), db,
      FS.unlink fs destinationPath)
  | some (fileBytes, hashedBytes, totalBytes) =>
    let sha256Hex := E.sha256Bytes hashedBytes
    let expiresAt := now + (cfg.retentionDays : Int) * 86400
    let deleteTokenHash := hashToken E deleteTokenRaw
    let relativePath := destinationPath.drop cfg.storageRoot.length
    let uploadRecord : Upload :=
      { ownerId := user.id, downloadToken := downloadToken,
        deleteTokenHash := deleteTokenHash, path := relativePath,
        originalName := orDefault "file" filename,
        contentType := orDefault "application/octet-stream" contentType,
        sizeBytes := totalBytes, createdAt := now, expiresAt := expiresAt,
        sha256 := sha256Hex }
    (.ok (uploadRecord, downloadToken, deleteTokenRaw),
      { db with uploads := db.uploads ++ [uploadRecord] },
      FS.write fs destinationPath fileBytes)

/-- cleanup_worker.py delete_expired_uploads: select the rows with
expires_at <= now; for each, _delete_upload_file(Path(upload.path)) unlinks the
RELATIVE stored path, which the OS resolves against the current working
directory (upload.path was persisted relative to the storage root), swallowing
OSError from the parent-directory cleanup; then the row is deleted. Returns the
number of rows removed. -/
def delete_expired_uploads (db : DB) (fs : FS) (cwd : FPath) (now : Int) : Nat × DB × FS :=
  let expired := db.uploads.filter (fun u => decide (u.expiresAt ≤ now))
  let fs2 := expired.foldl (fun acc u => FS.unlink acc (cwd ++ u.path)) fs
  (expired.length,
    { db with uploads := db.uploads.filter (fun u => !(decide (u.expiresAt ≤ now))) },
    fs2)

/-- Python truthiness test used by validate_csrf_token for each argument: an
absent or empty string is falsy. -/
def falsyStr : Option String → Bool
  | none => true
  | some s => s == ""

/-- deps/security.py _sign_nonce: HMAC-SHA256 of the nonce under the server
secret, hex encoded. -/
def signNonce (E : Ext) (secret nonce : String) : String := E.hmacSha256Hex secret nonce

/-- deps/security.py issue_csrf_token: nonce dot signature. The nonce is the
token_urlsafe oracle value (base64url, hence never empty and dot-free). -/
def issue_csrf_token (E : Ext) (secret nonce : String) : String :=
  nonce ++ "." ++ signNonce E secret nonce

/-- Python str.split(".", 1): none when there is no dot, otherwise the parts
before and after the first dot. -/
def splitOnceDot : List Char → Option (List Char × List Char)
  | [] => none
  | c :: cs =>
    if c == '.' then some ([], cs)
    else (splitOnceDot cs).map (fun r => (c :: r.1, r.2))

/-- deps/security.py validate_csrf_token: fail on an absent or empty argument,
fail when submitted and cookie differ (hmac.compare_digest equals equality on
the values), fail when the submitted value has no dot to split on, else compare
the signature part against the recomputed signature of the nonce part. -/
def validate_csrf_token (E : Ext) (secret : String) (submitted cookieValue : Option String) : Bool :=
  if falsyStr submitted || falsyStr cookieValue then false
  else
    let s := submitted.getD ""
    let c := cookieValue.getD ""
    if !(s == c) then false
    else
      match splitOnceDot s.data with
      | none => false
      | some r => signNonce E secret (String.mk r.1) == String.mk r.2

/-- Whether a service result is an InvalidInvite failure. -/
def isInvalidInvite {α : Type} : Except AuthError α → Bool
  | .error (.invalidInvite _) => true
  | _ => false

/-- One service operation together with its oracle inputs (current time, random
tokens, uuid hex): the surface the route layer drives. -/
inductive Op where
  | createInvite (email role : String) (createdBy : Option Nat) (rawToken : String) (now : Int)
  | consumeInvite (token email password : String) (now : Int)
  | authUser (email password : String) (now : Int)
  | createSession (userId : Nat) (ipAddress userAgent : Option String) (rawToken : String) (now : Int)
  | revokeSession (rawToken : String) (now : Int)
  | resolveSession (rawToken : String) (now : Int)
  | storeUpload (user : User) (filename contentType : Option String) (content : List Nat)
      (uuidHex downloadToken deleteTokenRaw : String) (now : Int)
  | deleteExpired (now : Int)

/-- State transition of one operation on the world (database, filesystem): the
transactional scope commits the new state on success and leaves the old state on
an error. -/
def execOp (E : Ext) (cfg : Settings) (cwd : FPath) (w : DB × FS) : Op → DB × FS
  | .createInvite email role createdBy rawToken now =>
      ((create_invite E cfg w.1 email role createdBy rawToken now).2, w.2)
  | .consumeInvite token email password now =>
      match consume_invite E w.1 token email password now with
      | .ok r => (r.2, w.2)
      | .error _ => w
  | .authUser email password now =>
      match authenticate_user E w.1 email password now with
      | .ok r => (r.2, w.2)
      | .error _ => w
  | .createSession userId ip ua rawToken now =>
      ((create_session E cfg w.1 userId ip ua rawToken now).2, w.2)
  | .revokeSession rawToken now => (revoke_session E w.1 rawToken now, w.2)
  | .resolveSession rawToken now => ((resolve_user_from_session E w.1 rawToken now).2, w.2)
  | .storeUpload user fn ct content uuidHex dl del now =>
      let r := store_upload E cfg w.1 w.2 user fn ct content uuidHex dl del now
      (r.2.1, r.2.2)
  | .deleteExpired now =>
      let r := delete_expired_uploads w.1 w.2 cwd now
      (r.2.1, r.2.2)

/-- Run a sequence of service operations. -/
def execOps (E : Ext) (cfg : Settings) (cwd : FPath) (w : DB × FS) (ops : List Op) : DB × FS :=
  ops.foldl (execOp E cfg cwd) w

/-- The raw secret tokens an operation draws from the randomness oracle: the
invite token, the session token, and the upload delete token (the download
token is a capability stored in plaintext by design and is not a secret). -/
def opSecretRaws : Op → List String
  | .createInvite _ _ _ rawToken _ => [rawToken]
  | .createSession _ _ _ rawToken _ => [rawToken]
  | .storeUpload _ _ _ _ _ _ deleteTokenRaw _ => [deleteTokenRaw]
  | _ => []

def opsSecretRaws (ops : List Op) : List String :=
  ops.foldr (fun op acc => opSecretRaws op ++ acc) []

/-- Every database column that stores a secret token: Invite.token,
Session.token_hash, Upload.delete_token_hash. -/
def dbSecretFields (db : DB) : List String :=
  db.invites.map Invite.token ++ db.sessions.map Session.tokenHash ++
    db.uploads.map Upload.deleteTokenHash

/-! Concrete instances used to evaluate the theorems on closed inputs. -/

/-- A concrete, injective, kernel-computable instantiation of the external
collaborators: a digest is the marker character followed by the input, an hmac
signature tags secret and message, argon2 tags the password. -/
def Ew : Ext :=
  { sha256Bytes := fun bs => String.mk ('#' :: bs.map Char.ofNat),
    hmacSha256Hex := fun secret msg => String.mk ('&' :: (secret.data ++ '/' :: msg.data)),
    argonHash := fun password => String.mk ('!' :: password.data),
    argonVerify := fun password hashed => hashed == String.mk ('!' :: password.data),
    strftimeYM := fun _ => "2024-01" }

/-- Concrete settings with the config.py defaults and a two-component storage root. -/
def cfgW : Settings := { storageRoot := ["srv", "storage"] }

/-- Concrete settings with a small maximum size and chunk size, to exercise the
upload limit on short byte lists. -/
def cfgSmall : Settings := { storageRoot := ["srv", "storage"], maxSizeBytes := 4, chunkSize := 2 }

/-- Concrete working directory of the cleanup process, distinct from the storage root. -/
def cwdW : FPath := ["home", "app"]

/-- An expired upload row whose file sits under the storage root. -/
def upW4 : Upload :=
  { ownerId := 1, downloadToken := "dlW", deleteTokenHash := "#delW",
    path := ["1", "2024-01", "u1", "file.txt"], originalName := "file.txt",
    contentType := "text/plain", sizeBytes := 2, createdAt := -5, expiresAt := 0,
    sha256 := "#x" }

def dbW4 : DB := { invites := [], users := [], sessions := [], uploads := [upW4], nextUserId := 1 }

/-- The stored file of upW4, at its absolute location under the storage root. -/
def fsW4 : FS := [(["srv", "storage", "1", "2024-01", "u1", "file.txt"], [7, 7])]

/-- An invite that is both already used and expired. -/
def invC5 : Invite :=
  { token := hashToken Ew "tok5", email := "x@y.z", role := "member",
    expiresAt := 0, usedAt := some (-1), createdBy := none }

def dbC5 : DB := { invites := [invC5], users := [], sessions := [], uploads := [], nextUserId := 1 }

/-- An invite that is expired but never used. -/
def invC5w : Invite :=
  { token := hashToken Ew "tok5w", email := "x@y.z", role := "member",
    expiresAt := 0, usedAt := none, createdBy := none }

def dbC5w : DB := { invites := [invC5w], users := [], sessions := [], uploads := [], nextUserId := 1 }

def userC6 : User :=
  { id := 7, email := "u@e.x", passwordHash := "!pw", role := "member",
    createdAt := 0, lastLoginAt := none, isActive := true }

/-- A live session of userC6. -/
def sessC6 : Session :=
  { tokenHash := hashToken Ew "sess6", userId := 7, createdAt := 0, expiresAt := 100,
    lastSeenAt := 0, revokedAt := none, ipAddress := none, userAgent := none }

/-- A revoked session of userC6 under a different token. -/
def sessC6r : Session :=
  { tokenHash := hashToken Ew "sess6r", userId := 7, createdAt := 0, expiresAt := 100,
    lastSeenAt := 0, revokedAt := some 1, ipAddress := none, userAgent := none }

def dbC6 : DB :=
  { invites := [], users := [userC6], sessions := [sessC6, sessC6r], uploads := [], nextUserId := 8 }

/-- An inactive user with a correct password hash. -/
def uInact : User :=
  { id := 1, email := "i@e.x", passwordHash := Ew.argonHash "pw1", role := "member",
    createdAt := 0, lastLoginAt := none, isActive := false }

/-- An active user whose stored hash verifies the password pw1. -/
def uAct : User :=
  { id := 2, email := "a@e.x", passwordHash := Ew.argonHash "pw1", role := "member",
    createdAt := 0, lastLoginAt := none, isActive := true }

def dbC8 : DB := { invites := [], users := [uInact, uAct], sessions := [], uploads := [], nextUserId := 3 }

/-- The user record the storeUpload witness operation runs under. -/
def uW9 : User :=
  { id := 1, email := "a@b.c", passwordHash := Ew.argonHash "pw", role := "member",
    createdAt := 1, lastLoginAt := none, isActive := true }

/-- A concrete operation sequence touching every secret-creating operation. -/
def opsW : List Op :=
  [ .createInvite "A@B.c" "member" none "rawInv" 0,
    .consumeInvite "rawInv" "a@b.c" "pw" 1,
    .createSession 1 none none "rawSess" 2,
    .storeUpload uW9 none none [1, 2] "u1" "rawDl" "rawDel" 3,
    .resolveSession "rawSess" 4,
    .deleteExpired 5 ]

/-! Helper lemmas about the embedding primitives. -/

theorem setFirst_append_of_none {α : Type} (p : α → Bool) (f : α → α) {l1 : List α}
    (l2 : List α) (h : l1.find? p = none) :
    setFirst p f (l1 ++ l2) = l1 ++ setFirst p f l2 := by
  induction l1 with
  | nil => rfl
  | cons x xs ih =>
    have hx : ¬ p x = true := fun hx => (List.find?_eq_none.mp h x (by simp)) hx
    have hxs : xs.find? p = none :=
      List.find?_eq_none.mpr (fun y hy => List.find?_eq_none.mp h y (by simp [hy]))
    simp [setFirst, hx, ih hxs]

theorem find?_setFirst_self {α : Type} {p : α → Bool} {f : α → α} :
    ∀ {l : List α} {a : α}, l.find? p = some a → p (f a) = true →
      (setFirst p f l).find? p = some (f a) := by
  intro l
  induction l with
  | nil => intro a h _; simp [List.find?] at h
  | cons x xs ih =>
    intro a h hfa
    cases hpx : p x with
    | true =>
      rw [List.find?_cons_of_pos _ hpx] at h
      injection h with hxa
      subst hxa
      simp only [setFirst, if_pos hpx]
      exact List.find?_cons_of_pos _ hfa
    | false =>
      rw [List.find?_cons_of_neg _ (by simp [hpx])] at h
      simp only [setFirst, hpx, if_neg (by simp : ¬ False)]
      rw [if_neg (by simp [hpx])]
      rw [List.find?_cons_of_neg _ (by simp [hpx])]
      exact ih h hfa

theorem map_setFirst {α β : Type} (g : α → β) (p : α → Bool) (f : α → α)
    (hgf : ∀ a, g (f a) = g a) : ∀ l : List α, (setFirst p f l).map g = l.map g := by
  intro l
  induction l with
  | nil => rfl
  | cons x xs ih => cases hpx : p x <;> simp [setFirst, hpx, hgf, ih]

theorem FS.read_write (fs : FS) (p : FPath) (bs : List Nat) :
    FS.read (FS.write fs p bs) p = some bs := by
  unfold FS.read FS.write
  rw [List.find?_cons_of_pos _ (by simp)]
  rfl

theorem FS.unlink_of_read_none {fs : FS} {p : FPath} (h : FS.read fs p = none) :
    FS.unlink fs p = fs := by
  unfold FS.read at h
  rw [Option.map_eq_none'] at h
  have hall := List.find?_eq_none.mp h
  unfold FS.unlink
  exact List.filter_eq_self.mpr (fun e he => by simpa using hall e he)

theorem storeLoop_complete {maxSize chunkSize : Nat} (hcs : 0 < chunkSize) :
    ∀ (n : Nat) (rest fileBytes hashedBytes : List Nat) (totalBytes : Nat),
      rest.length ≤ n → totalBytes + rest.length ≤ maxSize →
      storeLoop maxSize chunkSize rest fileBytes hashedBytes totalBytes =
        some (fileBytes ++ rest, hashedBytes ++ rest, totalBytes + rest.length) := by
  intro n
  induction n with
  | zero =>
    intro rest f hsh t hlen _
    have hrest : rest = [] := List.length_eq_zero.mp (Nat.le_zero.mp hlen)
    subst hrest
    unfold storeLoop
    simp
  | succ n ih =>
    intro rest f hsh t hlen hmax
    rcases eq_or_ne rest [] with hrest | hrest
    · subst hrest
      unfold storeLoop
      simp
    · have hpos : 0 < rest.length := List.length_pos.mpr hrest
      have htake : ¬ rest.take chunkSize = [] := by
        rw [List.take_eq_nil_iff]
        push_neg
        exact ⟨by omega, hrest⟩
      unfold storeLoop
      rw [dif_neg htake]
      have hlt : (rest.take chunkSize).length = min chunkSize rest.length := by
        simpa using List.length_take chunkSize rest
      have hnot : ¬ (maxSize < t + (rest.take chunkSize).length) := by
        rw [hlt]; omega
      rw [if_neg hnot]
      rw [ih (rest.drop chunkSize) (f ++ rest.take chunkSize) (hsh ++ rest.take chunkSize)
        (t + (rest.take chunkSize).length)
        (by simp only [List.length_drop]; omega)
        (by simp only [List.length_drop, hlt]; omega)]
      simp only [List.append_assoc, List.take_append_drop, Option.some.injEq, Prod.mk.injEq,
        true_and]
      simp only [List.length_drop, hlt]
      omega

theorem storeLoop_abort {maxSize chunkSize : Nat} (hcs : 0 < chunkSize) :
    ∀ (n : Nat) (rest fileBytes hashedBytes : List Nat) (totalBytes : Nat),
      rest.length ≤ n → totalBytes ≤ maxSize → maxSize < totalBytes + rest.length →
      storeLoop maxSize chunkSize rest fileBytes hashedBytes totalBytes = none := by
  intro n
  induction n with
  | zero =>
    intro rest f hsh t hlen hle hgt
    have hrest : rest = [] := List.length_eq_zero.mp (Nat.le_zero.mp hlen)
    subst hrest
    simp at hgt
    omega
  | succ n ih =>
    intro rest f hsh t hlen hle hgt
    rcases eq_or_ne rest [] with hrest | hrest
    · subst hrest
      simp at hgt
      omega
    · have hpos : 0 < rest.length := List.length_pos.mpr hrest
      have htake : ¬ rest.take chunkSize = [] := by
        rw [List.take_eq_nil_iff]
        push_neg
        exact ⟨by omega, hrest⟩
      unfold storeLoop
      rw [dif_neg htake]
      have hlt : (rest.take chunkSize).length = min chunkSize rest.length := by
        simpa using List.length_take chunkSize rest
      by_cases hover : maxSize < t + (rest.take chunkSize).length
      · rw [if_pos hover]
      · rw [if_neg hover]
        exact ih (rest.drop chunkSize) (f ++ rest.take chunkSize) (hsh ++ rest.take chunkSize)
          (t + (rest.take chunkSize).length)
          (by simp only [List.length_drop]; omega)
          (by omega)
          (by simp only [List.length_drop]; rw [hlt] at hover ⊢; omega)

theorem splitOnceDot_append (nonce sig : List Char) (h : ('.' : Char) ∉ nonce) :
    splitOnceDot (nonce ++ '.' :: sig) = some (nonce, sig) := by
  induction nonce with
  | nil => simp [splitOnceDot]
  | cons c cs ih =>
    have hcne : c ≠ '.' := fun he => h (by simp [he])
    have h2 : ('.' : Char) ∉ cs := fun hm => h (List.mem_cons_of_mem _ hm)
    simp [splitOnceDot, hcne, ih h2]

theorem resolvePath_append (l : FPath) (c : String) (h1 : c ≠ ".") (h2 : c ≠ "..") :
    resolvePath (l ++ [c]) = resolvePath l ++ [c] := by
  unfold resolvePath
  rw [List.foldl_append]
  simp [h1, h2]

theorem strMk_data (s : String) : String.mk s.data = s := by
  cases s
  rfl

/-- Successful invite consumption, fully evaluated: with a found, unused,
unexpired, email-matching invite and no existing user, consume_invite creates
the user row and marks the invite used in the same state transition. -/
theorem consume_invite_ok {E : Ext} {db : DB} {tok email password : String} {now : Int}
    {inv : Invite}
    (hfind : db.invites.find? (fun i => i.token == hashToken E tok) = some inv)
    (hused : inv.usedAt = none)
    (hexp : ¬ (inv.expiresAt < now))
    (hmail : normalizeEmail inv.email = normalizeEmail email)
    (husers : db.users.find? (fun u => u.email == normalizeEmail email) = none) :
    consume_invite E db tok email password now =
      .ok ({ id := db.nextUserId, email := normalizeEmail email, passwordHash := E.argonHash password, role := inv.role, createdAt := now, lastLoginAt := none, isActive := true },
        { db with
          users := db.users ++ [{ id := db.nextUserId, email := normalizeEmail email, passwordHash := E.argonHash password, role := inv.role, createdAt := now, lastLoginAt := none, isActive := true }],
          invites := (setFirst (fun i => i.token == hashToken E tok)
            (fun i => { i with usedAt := some now }) db.invites),
          nextUserId := db.nextUserId + 1 }) := by
  simp only [consume_invite]
  rw [hfind]
  simp [hused, hexp, hmail, husers]

/-- A found invite whose used_at is set fails with InviteAlreadyUsed no matter
what email, password or time the call supplies. -/
theorem consume_invite_already_used {E : Ext} {db : DB} {tok email password : String}
    {now : Int} {inv : Invite}
    (hfind : db.invites.find? (fun i => i.token == hashToken E tok) = some inv)
    (hused : inv.usedAt.isSome = true) :
    consume_invite E db tok email password now =
      .error (.inviteAlreadyUsed "Invite already used") := by
  simp only [consume_invite]
  rw [hfind]
  simp [hused]

/-- Claim C4: evaluation of the cleanup worker at the failing input. The expired
row is removed, the count is 1, and an immediately repeated call removes zero —
but the filesystem is returned unchanged: the stored file under the storage root
survives, because _delete_upload_file unlinks the storage-relative upload.path
against the working directory instead of under the storage root. -/
theorem c4_cleanup_leaves_stored_file :
    upW4.expiresAt ≤ 1 ∧
    delete_expired_uploads dbW4 fsW4 cwdW 1 = (1, { dbW4 with uploads := [] }, fsW4) ∧
    FS.read fsW4 (cfgW.storageRoot ++ upW4.path) = some [7, 7] ∧
    (delete_expired_uploads { dbW4 with uploads := [] } fsW4 cwdW 1).1 = 0 := by
  decide

/-- Claim C5 (amended): an invite that has not yet been used and whose expiry is
strictly in the past always fails consumption with InvalidInvite, even when the
token hash matches the stored invite and the email matches the invite email; an
already-consumed invite instead fails with InviteAlreadyUsed, since the used
check precedes the expiry check. -/
theorem c5_expired_unused_invite_fails (E : Ext) (db : DB) (tok email password : String)
    (now : Int) (inv : Invite)
    (hfind : db.invites.find? (fun i => i.token == hashToken E tok) = some inv)
    (hused : inv.usedAt = none)
    (hexp : inv.expiresAt < now)
    (hmail : normalizeEmail inv.email = normalizeEmail email) :
    consume_invite E db tok email password now = .error (.invalidInvite "Invite expired") := by
  simp only [consume_invite]
  rw [hfind]
  simp [hused, hexp]

/-- Claim C5, counterexample: an invite that is both already used and expired,
with matching token and email, fails with InviteAlreadyUsed rather than
InvalidInvite. -/
theorem c5_counterexample :
    invC5.expiresAt < 5 ∧ invC5.token = hashToken Ew "tok5" ∧
    normalizeEmail invC5.email = normalizeEmail "x@y.z" ∧
    consume_invite Ew dbC5 "tok5" "x@y.z" "pw" 5 =
      .error (.inviteAlreadyUsed "Invite already used") ∧
    isInvalidInvite (consume_invite Ew dbC5 "tok5" "x@y.z" "pw" 5) = false :=
  ⟨by decide, rfl, by decide, rfl, rfl⟩

/-- Claim C5, witness: a concrete expired, unused invite with correct token and
email fails with InvalidInvite. -/
theorem c5_witness :
    consume_invite Ew dbC5w "tok5w" "x@y.z" "pw" 5 = .error (.invalidInvite "Invite expired") :=
  c5_expired_unused_invite_fails Ew dbC5w "tok5w" "x@y.z" "pw" 5 invC5w
    (by decide) (by decide) (by decide) (by decide)

/-- Claim C10 (amended): sanitize_filename always returns a non-empty name over
the class A-Z a-z 0-9 dot underscore dash, so the name contains no path
separator and the allocated path extends the per-upload directory by exactly one
component; whenever the sanitized name is neither dot nor dot-dot, the resolved
allocated path is that one-component extension of the resolved per-upload
directory, hence lies strictly inside it. The names dot and dot-dot survive
sanitization and escape to the per-upload directory itself or its parent. -/
theorem c10_sanitize_filename_path_safe (E : Ext) (cfg : Settings) (ownerId : Nat)
    (originalName : String) (createdAt : Int) (uuidHex : String)
    (hdot : sanitize_filename originalName ≠ ".")
    (hdotdot : sanitize_filename originalName ≠ "..") :
    sanitize_filename originalName ≠ "" ∧
    (∀ c ∈ (sanitize_filename originalName).data, isSafeFilenameChar c = true) ∧
    ('/' : Char) ∉ (sanitize_filename originalName).data ∧
    allocate_upload_path E cfg ownerId originalName createdAt uuidHex =
      uploadTargetDir E cfg ownerId createdAt uuidHex ++ [sanitize_filename originalName] ∧
    resolvePath (allocate_upload_path E cfg ownerId originalName createdAt uuidHex) =
      resolvePath (uploadTargetDir E cfg ownerId createdAt uuidHex) ++
        [sanitize_filename originalName] := by
  have hfile : ("file" : String).data = ['f', 'i', 'l', 'e'] := rfl
  have hsafe : ∀ c ∈ (sanitize_filename originalName).data, isSafeFilenameChar c = true := by
    intro c hc
    unfold sanitize_filename at hc
    split at hc
    · rw [hfile] at hc
      simp at hc
      rcases hc with rfl | rfl | rfl | rfl <;> decide
    · dsimp only at hc
      split at hc
      · rw [hfile] at hc
        simp at hc
        rcases hc with rfl | rfl | rfl | rfl <;> decide
      · exact (List.mem_filter.mp hc).2
  refine ⟨?_, hsafe, fun hmem => absurd (hsafe _ hmem) (by decide), rfl,
    resolvePath_append _ _ hdot hdotdot⟩
  unfold sanitize_filename
  split
  · decide
  · dsimp only
    split
    · decide
    · rename_i hne
      intro he
      exact hne (by simp only [he, beq_self_eq_true])

/-- Claim C10, counterexample: the original name dot-dot sanitizes to itself, and
the allocated path then resolves to the parent of the per-upload directory — it
does not lie inside the per-upload directory. -/
theorem c10_counterexample :
    sanitize_filename ".." = ".." ∧
    liesInside (uploadTargetDir Ew cfgW 1 0 "u1")
      (allocate_upload_path Ew cfgW 1 ".." 0 "u1") = false ∧
    resolvePath (allocate_upload_path Ew cfgW 1 ".." 0 "u1") =
      cfgW.storageRoot ++ ["1", "2024-01"] ∧
    liesInside (uploadTargetDir Ew cfgW 1 0 "u1")
      (uploadTargetDir Ew cfgW 1 0 "u1" ++ ["doc.txt"]) = true := by
  decide

/-- Claim C10, witness: a concrete attacker-supplied name with spaces and
parentheses sanitizes to a safe single component and the allocated path stays
inside the per-upload directory. -/
theorem c10_witness :
    sanitize_filename "my report(1).txt" ≠ "" ∧
    (∀ c ∈ (sanitize_filename "my report(1).txt").data, isSafeFilenameChar c = true) ∧
    ('/' : Char) ∉ (sanitize_filename "my report(1).txt").data ∧
    allocate_upload_path Ew cfgW 1 "my report(1).txt" 0 "u1" =
      uploadTargetDir Ew cfgW 1 0 "u1" ++ [sanitize_filename "my report(1).txt"] ∧
    resolvePath (allocate_upload_path Ew cfgW 1 "my report(1).txt" 0 "u1") =
      resolvePath (uploadTargetDir Ew cfgW 1 0 "u1") ++
        [sanitize_filename "my report(1).txt"] :=
  c10_sanitize_filename_path_safe Ew cfgW 1 "my report(1).txt" 0 "u1"
    (by decide) (by decide)

/-- Claim C6: resolve_user_from_session returns no user and leaves the state
whenever every session carrying the token hash is revoked or not strictly
unexpired (in particular for an unknown token); and for the found session row —
unrevoked, strictly unexpired, joined to its user — it returns that owning user
and stamps the session last_seen_at with the current time. -/
theorem c6_resolve_user_from_session (E : Ext) (db : DB) (raw : String) (now : Int) :
    ((∀ sm ∈ db.sessions, sm.tokenHash = hashToken E raw →
        ¬ (sm.revokedAt = none ∧ now < sm.expiresAt)) →
      resolve_user_from_session E db raw now = (none, db)) ∧
    (∀ sm, db.sessions.find? (resolvePred E raw now) = some sm →
      ∀ user, db.users.find? (fun u => u.id == sm.userId) = some user →
        user.id = sm.userId ∧
        (resolve_user_from_session E db raw now).1 = some user ∧
        { sm with lastSeenAt := now } ∈ (resolve_user_from_session E db raw now).2.sessions) := by
  constructor
  · intro hall
    have hfind : db.sessions.find? (resolvePred E raw now) = none := by
      apply List.find?_eq_none.mpr
      intro sm hm hpred
      simp only [resolvePred, Bool.and_eq_true, beq_iff_eq, Option.isNone_iff_eq_none,
        decide_eq_true_eq] at hpred
      exact hall sm hm hpred.1.1 ⟨hpred.1.2, hpred.2⟩
    simp [resolve_user_from_session, hfind]
  · intro sm hfind user huser
    have hpred : resolvePred E raw now sm = true := List.find?_some hfind
    have hid : user.id = sm.userId := by simpa using List.find?_some huser
    have hpredf : resolvePred E raw now { sm with lastSeenAt := now } = true := hpred
    refine ⟨hid, ?_, ?_⟩
    · simp [resolve_user_from_session, hfind, huser]
    · simp only [resolve_user_from_session, hfind, huser]
      exact List.mem_of_find?_eq_some (find?_setFirst_self hfind hpredf)

/-- Claim C6, witness: in a concrete database with a live session, a revoked
session and one user, resolution succeeds exactly on the live token and stamps
its last-seen time; the revoked token, an unknown token, and the live token
after expiry all yield no user and leave the state unchanged. -/
theorem c6_witness :
    (userC6.id = sessC6.userId ∧
      (resolve_user_from_session Ew dbC6 "sess6" 50).1 = some userC6 ∧
      { sessC6 with lastSeenAt := 50 } ∈ (resolve_user_from_session Ew dbC6 "sess6" 50).2.sessions) ∧
    resolve_user_from_session Ew dbC6 "sess6r" 50 = (none, dbC6) ∧
    resolve_user_from_session Ew dbC6 "unknown" 50 = (none, dbC6) ∧
    resolve_user_from_session Ew dbC6 "sess6" 200 = (none, dbC6) :=
  ⟨(c6_resolve_user_from_session Ew dbC6 "sess6" 50).2 sessC6 (by decide) userC6 (by decide),
   (c6_resolve_user_from_session Ew dbC6 "sess6r" 50).1 (by decide),
   (c6_resolve_user_from_session Ew dbC6 "unknown" 50).1 (by decide),
   (c6_resolve_user_from_session Ew dbC6 "sess6" 200).1 (by decide)⟩

/-- Claim C8: authenticate_user can only fail with the one error value
InvalidCredentials carrying the message Invalid credentials — it does so when no
user exists for the email, when the user is inactive, and when the password does
not verify — and on success the returned user carries last_login_at stamped with
the current time and the updated row is in the database. -/
theorem c8_authenticate_user_uniform_error (E : Ext) (db : DB) (email password : String) (now : Int) :
    (∀ err, authenticate_user E db email password now = .error err →
      err = .invalidCredentials "Invalid credentials") ∧
    (db.users.find? (fun u => u.email == normalizeEmail email) = none →
      authenticate_user E db email password now = .error (.invalidCredentials "Invalid credentials")) ∧
    (∀ u, db.users.find? (fun u2 => u2.email == normalizeEmail email) = some u →
      u.isActive = false →
      authenticate_user E db email password now = .error (.invalidCredentials "Invalid credentials")) ∧
    (∀ u, db.users.find? (fun u2 => u2.email == normalizeEmail email) = some u →
      E.argonVerify password u.passwordHash = false →
      authenticate_user E db email password now = .error (.invalidCredentials "Invalid credentials")) ∧
    (∀ u db2, authenticate_user E db email password now = .ok (u, db2) →
      u.lastLoginAt = some now ∧ u ∈ db2.users) := by
  refine ⟨?_, ?_, ?_, ?_, ?_⟩
  · intro err herr
    simp only [authenticate_user] at herr
    split at herr
    · injection herr with h
      exact h.symm
    · split at herr
      · injection herr with h
        exact h.symm
      · split at herr
        · injection herr with h
          exact h.symm
        · exact absurd herr (by simp)
  · intro hnone
    simp [authenticate_user, hnone]
  · intro u hfind hact
    simp [authenticate_user, hfind, hact]
  · intro u hfind hver
    simp only [authenticate_user]
    rw [hfind]
    by_cases ha : u.isActive
    · simp [ha, hver]
    · simp [ha]
  · intro u db2 hok
    simp only [authenticate_user] at hok
    split at hok
    · exact absurd hok (by simp)
    · rename_i u0 heq
      split at hok
      · exact absurd hok (by simp)
      · split at hok
        · exact absurd hok (by simp)
        · have hpred := @List.find?_some _ _ _ _ heq
          injection hok with hpair
          injection hpair with hu hdb
          subst hu
          subst hdb
          exact ⟨rfl, List.mem_of_find?_eq_some (find?_setFirst_self heq hpred)⟩

/-- Claim C8, witness: against a concrete database with an inactive user and an
active user, the absent-email, inactive-user and wrong-password calls all return
the identical InvalidCredentials error, and the successful call stamps
last_login_at. -/
theorem c8_witness :
    authenticate_user Ew dbC8 "no@e.x" "pw1" 9 = .error (.invalidCredentials "Invalid credentials") ∧
    authenticate_user Ew dbC8 "i@e.x" "pw1" 9 = .error (.invalidCredentials "Invalid credentials") ∧
    authenticate_user Ew dbC8 "a@e.x" "wrong" 9 = .error (.invalidCredentials "Invalid credentials") ∧
    (({ uAct with lastLoginAt := some 9 } : User).lastLoginAt = some 9 ∧
      ({ uAct with lastLoginAt := some 9 } : User) ∈
        ({ dbC8 with users := [uInact, { uAct with lastLoginAt := some 9 }] } : DB).users) :=
  ⟨(c8_authenticate_user_uniform_error Ew dbC8 "no@e.x" "pw1" 9).2.1 (by decide),
   (c8_authenticate_user_uniform_error Ew dbC8 "i@e.x" "pw1" 9).2.2.1 uInact (by decide) (by decide),
   (c8_authenticate_user_uniform_error Ew dbC8 "a@e.x" "wrong" 9).2.2.2.1 uAct (by decide) (by decide),
   (c8_authenticate_user_uniform_error Ew dbC8 "a@e.x" "pw1" 9).2.2.2.2
     ({ uAct with lastLoginAt := some 9 })
     ({ dbC8 with users := [uInact, { uAct with lastLoginAt := some 9 }] }) rfl⟩

/-- Claim C2: when the cumulative input size exceeds the configured maximum
(under a positive configured chunk size, writing to the freshly allocated,
previously unused uuid path), store_upload aborts on the chunk that would exceed
the limit and fails with UploadTooLarge, the database is unchanged — no Upload
row is persisted — and the filesystem is unchanged — no partial or complete file
remains. -/
theorem c2_store_upload_too_large (E : Ext) (cfg : Settings) (db : DB) (fs : FS)
    (user : User) (filename contentType : Option String) (content : List Nat)
    (uuidHex downloadToken deleteTokenRaw : String) (now : Int)
    (hchunk : 0 < cfg.chunkSize)
    (hsize : cfg.maxSizeBytes < content.length)
    (hfresh : FS.read fs (allocate_upload_path E cfg user.id (orDefault "file" filename) now uuidHex) = none) :
    store_upload E cfg db fs user filename contentType content uuidHex downloadToken deleteTokenRaw now =
      (.error (.uploadTooLarge "Upload exceeds maximum allowed size"), db, fs) := by
  have hloop : storeLoop cfg.maxSizeBytes cfg.chunkSize content [] [] 0 = none := by
    apply storeLoop_abort hchunk content.length content [] [] 0 le_rfl (Nat.zero_le _)
    omega
  simp [store_upload, hloop, FS.unlink_of_read_none hfresh]

/-- Claim C2, witness: a five-byte stream against a four-byte limit fails with
UploadTooLarge and leaves the empty database and empty filesystem unchanged. -/
theorem c2_witness :
    store_upload Ew cfgSmall emptyDB [] uW9 none none [1, 2, 3, 4, 5] "u1" "dl" "del" 0 =
      (.error (.uploadTooLarge "Upload exceeds maximum allowed size"), emptyDB, []) :=
  c2_store_upload_too_large Ew cfgSmall emptyDB [] uW9 none none [1, 2, 3, 4, 5] "u1" "dl" "del" 0
    (by decide) (by decide) rfl

/-- Claim C3: when the input size is within the configured maximum (under a
positive configured chunk size), store_upload succeeds, the file persisted at
the allocated path is byte-for-byte the input content, and the persisted Upload
record carries sha256 equal to the digest of those same bytes and size_bytes
equal to the input length; the record is appended to the database and returned
with the two raw tokens. -/
theorem c3_store_upload_success (E : Ext) (cfg : Settings) (db : DB) (fs : FS)
    (user : User) (filename contentType : Option String) (content : List Nat)
    (uuidHex downloadToken deleteTokenRaw : String) (now : Int)
    (hchunk : 0 < cfg.chunkSize)
    (hsize : content.length ≤ cfg.maxSizeBytes) :
    ∃ rec : Upload,
      store_upload E cfg db fs user filename contentType content uuidHex downloadToken deleteTokenRaw now =
        (.ok (rec, downloadToken, deleteTokenRaw),
         { db with uploads := db.uploads ++ [rec] },
         FS.write fs (allocate_upload_path E cfg user.id (orDefault "file" filename) now uuidHex) content) ∧
      FS.read (FS.write fs (allocate_upload_path E cfg user.id (orDefault "file" filename) now uuidHex) content)
        (allocate_upload_path E cfg user.id (orDefault "file" filename) now uuidHex) = some content ∧
      rec.sha256 = E.sha256Bytes content ∧
      rec.sizeBytes = content.length := by
  have hloop : storeLoop cfg.maxSizeBytes cfg.chunkSize content [] [] 0 =
      some (content, content, content.length) := by
    have h0 : (0 : Nat) + content.length ≤ cfg.maxSizeBytes := by omega
    simpa using storeLoop_complete hchunk content.length content [] [] 0 le_rfl h0
  refine ⟨{ ownerId := user.id, downloadToken := downloadToken, deleteTokenHash := hashToken E deleteTokenRaw, path := (allocate_upload_path E cfg user.id (orDefault "file" filename) now uuidHex).drop cfg.storageRoot.length, originalName := orDefault "file" filename, contentType := orDefault "application/octet-stream" contentType, sizeBytes := content.length, createdAt := now, expiresAt := now + (cfg.retentionDays : Int) * 86400, sha256 := E.sha256Bytes content }, ?_, FS.read_write fs _ content, rfl, rfl⟩
  simp [store_upload, hloop]

/-- Claim C3, witness: a three-byte stream under a four-byte limit persists a
file equal to the input and records its digest and size. -/
theorem c3_witness :
    ∃ rec : Upload,
      store_upload Ew cfgSmall emptyDB [] uW9 none none [1, 2, 3] "u1" "dl" "del" 0 =
        (.ok (rec, "dl", "del"),
         { emptyDB with uploads := emptyDB.uploads ++ [rec] },
         FS.write [] (allocate_upload_path Ew cfgSmall uW9.id (orDefault "file" none) 0 "u1") [1, 2, 3]) ∧
      FS.read (FS.write [] (allocate_upload_path Ew cfgSmall uW9.id (orDefault "file" none) 0 "u1") [1, 2, 3])
        (allocate_upload_path Ew cfgSmall uW9.id (orDefault "file" none) 0 "u1") = some [1, 2, 3] ∧
      rec.sha256 = Ew.sha256Bytes [1, 2, 3] ∧
      rec.sizeBytes = ([1, 2, 3] : List Nat).length :=
  c3_store_upload_success Ew cfgSmall emptyDB [] uW9 none none [1, 2, 3] "u1" "dl" "del" 0
    (by decide) (by decide)

/-- Claim C1: for an invite freshly created by create_invite (no other invite
sharing the token hash) and a valid consumption — matching email, before expiry,
no existing user for the email — consume_invite succeeds, creating the user and
marking the invite used in the same transition; and every second call with the
same token fails with InviteAlreadyUsed, regardless of the supplied email,
password or time. -/
theorem c1_invite_consumed_exactly_once (E : Ext) (cfg : Settings) (db : DB)
    (email role : String) (createdBy : Option Nat) (tok : String) (now1 : Int)
    (email2 password : String) (now2 : Int)
    (hTok : ∀ i ∈ db.invites, i.token ≠ hashToken E tok)
    (hNoUser : ∀ u ∈ db.users, u.email ≠ normalizeEmail email2)
    (hEmail : normalizeEmail (normalizeEmail email) = normalizeEmail email2)
    (hNotExp : ¬ (now1 + (cfg.inviteTtlHours : Int) * 3600 < now2)) :
    ∃ u db2,
      consume_invite E (create_invite E cfg db email role createdBy tok now1).2 tok email2 password now2 = .ok (u, db2) ∧
      u ∈ db2.users ∧ u.email = normalizeEmail email2 ∧
      (∃ inv ∈ db2.invites, inv.token = hashToken E tok ∧ inv.usedAt = some now2) ∧
      (∀ email3 password3 now3, consume_invite E db2 tok email3 password3 now3 =
        .error (.inviteAlreadyUsed "Invite already used")) := by
  set invNew : Invite := { token := hashToken E tok, email := normalizeEmail email, role := role, expiresAt := now1 + (cfg.inviteTtlHours : Int) * 3600, usedAt := none, createdBy := createdBy } with hinvNew
  have hfind0 : db.invites.find? (fun i => i.token == hashToken E tok) = none :=
    List.find?_eq_none.mpr (fun i hi => by simpa using hTok i hi)
  have hdb1 : (create_invite E cfg db email role createdBy tok now1).2 =
      { db with invites := db.invites ++ [invNew] } := rfl
  rw [hdb1]
  have hptrue : (invNew.token == hashToken E tok) = true := beq_self_eq_true _
  have hfind1 : (db.invites ++ [invNew]).find? (fun i => i.token == hashToken E tok) = some invNew := by
    rw [List.find?_append, hfind0, Option.none_or]
    exact List.find?_cons_of_pos _ hptrue
  have husers : db.users.find? (fun u => u.email == normalizeEmail email2) = none :=
    List.find?_eq_none.mpr (fun u hu => by simpa using hNoUser u hu)
  have hok := @consume_invite_ok E { db with invites := db.invites ++ [invNew] } tok email2
    password now2 invNew hfind1 rfl hNotExp hEmail husers
  have hset : setFirst (fun i => i.token == hashToken E tok)
      (fun i => { i with usedAt := some now2 }) (db.invites ++ [invNew]) =
      db.invites ++ [{ invNew with usedAt := some now2 }] := by
    rw [setFirst_append_of_none _ _ _ hfind0]
    simp [setFirst, hptrue]
  refine ⟨_, _, hok, ?_, rfl, ?_, ?_⟩
  · simp
  · refine ⟨{ invNew with usedAt := some now2 }, ?_, rfl, rfl⟩
    show { invNew with usedAt := some now2 } ∈ setFirst (fun i => i.token == hashToken E tok)
      (fun i => { i with usedAt := some now2 }) (db.invites ++ [invNew])
    rw [hset]
    simp
  · intro email3 password3 now3
    have hfind2 : (setFirst (fun i => i.token == hashToken E tok)
        (fun i => { i with usedAt := some now2 }) (db.invites ++ [invNew])).find?
          (fun i => i.token == hashToken E tok) = some { invNew with usedAt := some now2 } := by
      rw [hset, List.find?_append, hfind0, Option.none_or]
      exact List.find?_cons_of_pos _ hptrue
    exact consume_invite_already_used hfind2 rfl

/-- Claim C1, witness: bootstrapping from the empty database, the created invite
is consumed once successfully and a repeat consumption with different email,
password and time fails with InviteAlreadyUsed. -/
theorem c1_witness :
    ∃ u db2,
      consume_invite Ew (create_invite Ew cfgW emptyDB "A@B.c " "member" none "tokA" 0).2 "tokA" "a@b.c" "pw" 10 = .ok (u, db2) ∧
      u ∈ db2.users ∧ u.email = normalizeEmail "a@b.c" ∧
      (∃ inv ∈ db2.invites, inv.token = hashToken Ew "tokA" ∧ inv.usedAt = some 10) ∧
      (∀ email3 password3 now3, consume_invite Ew db2 "tokA" email3 password3 now3 =
        .error (.inviteAlreadyUsed "Invite already used")) :=
  c1_invite_consumed_exactly_once Ew cfgW emptyDB "A@B.c " "member" none "tokA" 0 "a@b.c" "pw" 10
    (by simp [emptyDB]) (by simp [emptyDB]) (by decide) (by decide)

/-- Claim C7: validate_csrf_token returns false when either argument is absent
or empty and when submitted and cookie differ; it returns true exactly for an
equal non-empty pair whose first-dot split yields a nonce whose recomputed
signature under the server secret equals the signature part (so a wrong
signature fails); consequently every token produced by issue_csrf_token — a
non-empty dot-free nonce, a dot, and its signature — validates when presented as
both the submitted and the cookie value. -/
theorem c7_validate_csrf_token (E : Ext) (secret : String) :
    (∀ ck, validate_csrf_token E secret none ck = false) ∧
    (∀ sub, validate_csrf_token E secret sub none = false) ∧
    (∀ ck, validate_csrf_token E secret (some "") ck = false) ∧
    (∀ sub, validate_csrf_token E secret sub (some "") = false) ∧
    (∀ s c, s ≠ c → validate_csrf_token E secret (some s) (some c) = false) ∧
    (∀ sub ck, validate_csrf_token E secret sub ck = true ↔
      ∃ s, sub = some s ∧ ck = some s ∧ s ≠ "" ∧
        ∃ r, splitOnceDot s.data = some r ∧
          signNonce E secret (String.mk r.1) = String.mk r.2) ∧
    (∀ nonce, nonce ≠ "" → ('.' : Char) ∉ nonce.data →
      validate_csrf_token E secret (some (issue_csrf_token E secret nonce))
        (some (issue_csrf_token E secret nonce)) = true) := by
  refine ⟨?_, ?_, ?_, ?_, ?_, ?_, ?_⟩
  · intro ck
    simp [validate_csrf_token, falsyStr]
  · intro sub
    cases sub <;> simp [validate_csrf_token, falsyStr]
  · intro ck
    simp [validate_csrf_token, falsyStr]
  · intro sub
    cases sub <;> simp [validate_csrf_token, falsyStr]
  · intro s c hne
    by_cases hs : s = ""
    · subst hs
      simp [validate_csrf_token, falsyStr]
    · by_cases hc : c = ""
      · subst hc
        simp [validate_csrf_token, falsyStr]
      · have hsc : (s == c) = false := by
          simpa using hne
        simp [validate_csrf_token, falsyStr, hs, hc, hsc]
  · intro sub ck
    constructor
    · intro h
      cases sub with
      | none => simp [validate_csrf_token, falsyStr] at h
      | some s =>
        cases ck with
        | none => simp [validate_csrf_token, falsyStr] at h
        | some c =>
          by_cases hs : s = ""
          · subst hs
            simp [validate_csrf_token, falsyStr] at h
          · by_cases hc : c = ""
            · subst hc
              simp [validate_csrf_token, falsyStr] at h
            · by_cases hsc : s = c
              · subst hsc
                refine ⟨s, rfl, rfl, hs, ?_⟩
                simp only [validate_csrf_token, falsyStr] at h
                rw [if_neg (by simp [hs])] at h
                rw [if_neg (by simp)] at h
                simp only [Option.getD_some] at h
                rcases hsplit : splitOnceDot s.data with _ | r
                · rw [hsplit] at h
                  simp at h
                · rw [hsplit] at h
                  simp only [beq_iff_eq] at h
                  exact ⟨r, rfl, h⟩
              · have hsc2 : (s == c) = false := by simpa using hsc
                simp [validate_csrf_token, falsyStr, hs, hc, hsc2] at h
    · rintro ⟨s, rfl, rfl, hs, r, hsplit, hsig⟩
      simp [validate_csrf_token, falsyStr, hs, hsplit, hsig]
  · intro nonce hne hdot
    have hdata : (issue_csrf_token E secret nonce).data =
        nonce.data ++ '.' :: (signNonce E secret nonce).data := by
      simp [issue_csrf_token, String.data_append]
    have hsplit : splitOnceDot (issue_csrf_token E secret nonce).data =
        some (nonce.data, (signNonce E secret nonce).data) := by
      rw [hdata]
      exact splitOnceDot_append _ _ hdot
    have hne2 : issue_csrf_token E secret nonce ≠ "" := by
      intro he
      have hd := congrArg String.data he
      rw [hdata] at hd
      simp at hd
    simp [validate_csrf_token, falsyStr, hne2, hsplit, strMk_data]

/-- Claim C7, witness: concrete checks — absent cookie, absent form value, empty
values, mismatched pair, a mismatched signature, and a freshly issued token
presented as both values. -/
theorem c7_witness :
    validate_csrf_token Ew "k" none (some "x.y") = false ∧
    validate_csrf_token Ew "k" (some "x.y") none = false ∧
    validate_csrf_token Ew "k" (some "") (some "") = false ∧
    validate_csrf_token Ew "k" (some "a.b") (some "c.b") = false ∧
    validate_csrf_token Ew "k" (some "n0.bad") (some "n0.bad") = false ∧
    validate_csrf_token Ew "k" (some (issue_csrf_token Ew "k" "n0"))
      (some (issue_csrf_token Ew "k" "n0")) = true :=
  ⟨(c7_validate_csrf_token Ew "k").1 (some "x.y"),
   (c7_validate_csrf_token Ew "k").2.1 (some "x.y"),
   (c7_validate_csrf_token Ew "k").2.2.1 (some ""),
   (c7_validate_csrf_token Ew "k").2.2.2.2.1 "a.b" "c.b" (by decide),
   by decide,
   (c7_validate_csrf_token Ew "k").2.2.2.2.2.2 "n0" (by decide) (by decide)⟩

/-- A successful consume_invite changes no secret-token column: the invite keeps
its token (only used_at is set) and sessions and uploads are untouched. -/
theorem dbSecretFields_consume_invite {E : Ext} {db : DB} {tok email pw : String}
    {now : Int} {u : User} {db2 : DB}
    (h : consume_invite E db tok email pw now = .ok (u, db2)) :
    dbSecretFields db2 = dbSecretFields db := by
  simp only [consume_invite] at h
  split at h
  · simp at h
  · split at h
    · simp at h
    · split at h
      · simp at h
      · split at h
        · simp at h
        · split at h
          · simp at h
          · injection h with hp
            injection hp with hu hdb
            subst hdb
            simp only [dbSecretFields]
            rw [map_setFirst]
            intro a
            rfl

/-- A successful authenticate_user changes no secret-token column (only the user
row is touched). -/
theorem dbSecretFields_authenticate_user {E : Ext} {db : DB} {email pw : String}
    {now : Int} {u : User} {db2 : DB}
    (h : authenticate_user E db email pw now = .ok (u, db2)) :
    dbSecretFields db2 = dbSecretFields db := by
  simp only [authenticate_user] at h
  split at h
  · simp at h
  · split at h
    · simp at h
    · split at h
      · simp at h
      · injection h with hp
        injection hp with hu hdb
        subst hdb
        rfl

/-- revoke_session changes no secret-token column: the session keeps its token
hash, only revoked_at is set. -/
theorem dbSecretFields_revoke (E : Ext) (db : DB) (rawToken : String) (now : Int) :
    dbSecretFields (revoke_session E db rawToken now) = dbSecretFields db := by
  simp only [revoke_session, dbSecretFields]
  rw [map_setFirst]
  intro a
  rfl

/-- resolve_user_from_session changes no secret-token column: on a hit only
last_seen_at is stamped. -/
theorem dbSecretFields_resolve (E : Ext) (db : DB) (rawToken : String) (now : Int) :
    dbSecretFields ((resolve_user_from_session E db rawToken now).2) = dbSecretFields db := by
  simp only [resolve_user_from_session]
  split
  · rfl
  · split
    · rfl
    · simp only [dbSecretFields]
      rw [map_setFirst]
      intro a
      rfl

/-- store_upload either leaves the secret-token columns unchanged (the abort
path) or appends exactly the hash of the delete token. -/
theorem dbSecretFields_store_upload (E : Ext) (cfg : Settings) (db : DB) (fs : FS)
    (user : User) (fn ct : Option String) (content : List Nat)
    (uu dl del : String) (now : Int) :
    dbSecretFields ((store_upload E cfg db fs user fn ct content uu dl del now).2.1) =
      dbSecretFields db ∨
    dbSecretFields ((store_upload E cfg db fs user fn ct content uu dl del now).2.1) =
      db.invites.map Invite.token ++ db.sessions.map Session.tokenHash ++
        (db.uploads.map Upload.deleteTokenHash ++ [hashToken E del]) := by
  simp only [store_upload]
  split
  · exact Or.inl rfl
  · right
    simp [dbSecretFields, List.map_append, List.append_assoc]

/-- The cleanup sweep only removes upload rows, so every remaining secret-token
column value was already present. -/
theorem mem_dbSecretFields_delete_expired {db : DB} {fs : FS} {cwd : FPath} {now : Int}
    {s : String} (hs : s ∈ dbSecretFields ((delete_expired_uploads db fs cwd now).2.1)) :
    s ∈ dbSecretFields db := by
  simp only [delete_expired_uploads, dbSecretFields, List.mem_append] at hs ⊢
  rcases hs with (h | h) | h
  · exact Or.inl (Or.inl h)
  · exact Or.inl (Or.inr h)
  · refine Or.inr ?_
    simp only [List.mem_map] at h ⊢
    rcases h with ⟨u, hu, rfl⟩
    exact ⟨u, (List.mem_filter.mp hu).1, rfl⟩

/-- One step preserves the token-hygiene invariant: every secret-token column of
the resulting database was either already stored or is the hash of a raw secret
this operation drew. -/
theorem secretFields_execOp (E : Ext) (cfg : Settings) (cwd : FPath) (w : DB × FS) (op : Op) :
    dbSecretFields (execOp E cfg cwd w op).1 ⊆
      dbSecretFields w.1 ++ (opSecretRaws op).map (hashToken E) := by
  cases op with
  | createInvite email role createdBy rawToken now =>
    intro s hs
    simp only [execOp, create_invite, dbSecretFields, List.map_append, List.mem_append,
      List.map_cons, List.map_nil, List.mem_singleton] at hs
    simp only [dbSecretFields, opSecretRaws, List.map_cons, List.map_nil, List.mem_append,
      List.mem_singleton]
    tauto
  | consumeInvite tok email pw now =>
    intro s hs
    simp only [execOp] at hs
    cases hres : consume_invite E w.1 tok email pw now with
    | error e =>
      rw [hres] at hs
      exact List.mem_append.mpr (Or.inl hs)
    | ok v =>
      obtain ⟨u, db2⟩ := v
      rw [hres] at hs
      rw [dbSecretFields_consume_invite hres] at hs
      exact List.mem_append.mpr (Or.inl hs)
  | authUser email pw now =>
    intro s hs
    simp only [execOp] at hs
    cases hres : authenticate_user E w.1 email pw now with
    | error e =>
      rw [hres] at hs
      exact List.mem_append.mpr (Or.inl hs)
    | ok v =>
      obtain ⟨u, db2⟩ := v
      rw [hres] at hs
      rw [dbSecretFields_authenticate_user hres] at hs
      exact List.mem_append.mpr (Or.inl hs)
  | createSession userId ip ua rawToken now =>
    intro s hs
    simp only [execOp, create_session, dbSecretFields, List.map_append, List.mem_append,
      List.map_cons, List.map_nil, List.mem_singleton] at hs
    simp only [dbSecretFields, opSecretRaws, List.map_cons, List.map_nil, List.mem_append,
      List.mem_singleton]
    tauto
  | revokeSession rawToken now =>
    intro s hs
    simp only [execOp] at hs
    rw [dbSecretFields_revoke] at hs
    exact List.mem_append.mpr (Or.inl hs)
  | resolveSession rawToken now =>
    intro s hs
    simp only [execOp] at hs
    rw [dbSecretFields_resolve] at hs
    exact List.mem_append.mpr (Or.inl hs)
  | storeUpload user fn ct content uu dl del now =>
    intro s hs
    simp only [execOp] at hs
    rcases dbSecretFields_store_upload E cfg w.1 w.2 user fn ct content uu dl del now with heq | heq
    · rw [heq] at hs
      exact List.mem_append.mpr (Or.inl hs)
    · rw [heq] at hs
      simp only [List.mem_append, List.mem_singleton] at hs
      simp only [dbSecretFields, opSecretRaws, List.map_cons, List.map_nil, List.mem_append,
        List.mem_singleton]
      tauto
  | deleteExpired now =>
    intro s hs
    simp only [execOp] at hs
    exact List.mem_append.mpr (Or.inl (mem_dbSecretFields_delete_expired hs))

/-- Running any operation sequence, every secret-token column of the final
database was either in the initial database or is the hash of one of the raw
secrets the sequence drew. -/
theorem secretFields_execOps (E : Ext) (cfg : Settings) (cwd : FPath) :
    ∀ (ops : List Op) (w : DB × FS),
      dbSecretFields (execOps E cfg cwd w ops).1 ⊆
        dbSecretFields w.1 ++ (opsSecretRaws ops).map (hashToken E) := by
  intro ops
  induction ops with
  | nil =>
    intro w s hs
    simpa [execOps, opsSecretRaws] using hs
  | cons op ops ih =>
    intro w s hs
    have h1 := ih (execOp E cfg cwd w op) hs
    rw [List.mem_append] at h1
    rcases h1 with h1 | h1
    · have h2 := secretFields_execOp E cfg cwd w op h1
      rw [List.mem_append] at h2
      rcases h2 with h2 | h2
      · exact List.mem_append.mpr (Or.inl h2)
      · refine List.mem_append.mpr (Or.inr ?_)
        rw [show opsSecretRaws (op :: ops) = opSecretRaws op ++ opsSecretRaws ops from rfl,
          List.map_append, List.mem_append]
        exact Or.inl h2
    · refine List.mem_append.mpr (Or.inr ?_)
      rw [show opsSecretRaws (op :: ops) = opSecretRaws op ++ opsSecretRaws ops from rfl,
        List.map_append, List.mem_append]
      exact Or.inr h1

/-- Claim C9: starting from the empty database, after every sequence of service
operations each secret-token column (Invite.token, Session.token_hash,
Upload.delete_token_hash) holds only a hash — it is the SHA-256 of some raw
value, and no raw secret drawn by the sequence is ever stored as long as raw
values are not themselves hash outputs; and each secret-creating operation
returns its raw value to the caller while persisting exactly the hash:
create_invite returns the raw token and stores its hash in the invite token
column, create_session returns the raw token and appends exactly the hash to
the session token column, and store_upload returns the raw delete token while
the persisted record carries its hash. -/
theorem c9_raw_secrets_never_persisted (E : Ext) (cfg : Settings) (cwd : FPath) (ops : List Op) :
    (∀ s ∈ dbSecretFields (execOps E cfg cwd (emptyDB, []) ops).1, ∃ raw, s = hashToken E raw) ∧
    (∀ raw, raw ∈ opsSecretRaws ops → (∀ r, hashToken E r ≠ raw) →
      raw ∉ dbSecretFields (execOps E cfg cwd (emptyDB, []) ops).1) ∧
    (∀ db email role createdBy rawToken now,
      (create_invite E cfg db email role createdBy rawToken now).1.2 = rawToken ∧
      (create_invite E cfg db email role createdBy rawToken now).1.1.token = hashToken E rawToken) ∧
    (∀ db userId ip ua rawToken now,
      (create_session E cfg db userId ip ua rawToken now).1 = rawToken ∧
      (create_session E cfg db userId ip ua rawToken now).2.sessions.map Session.tokenHash =
        db.sessions.map Session.tokenHash ++ [hashToken E rawToken]) ∧
    (∀ db fs user fn ct content uu dl del now rec dlTok delTok db2 fs2,
      store_upload E cfg db fs user fn ct content uu dl del now = (.ok (rec, dlTok, delTok), db2, fs2) →
      delTok = del ∧ rec.deleteTokenHash = hashToken E del) := by
  have hmain : ∀ s ∈ dbSecretFields (execOps E cfg cwd (emptyDB, []) ops).1,
      s ∈ (opsSecretRaws ops).map (hashToken E) := by
    intro s hs
    have h := secretFields_execOps E cfg cwd ops (emptyDB, []) hs
    rw [List.mem_append] at h
    rcases h with h | h
    · simp [dbSecretFields, emptyDB] at h
    · exact h
  refine ⟨?_, ?_, ?_, ?_, ?_⟩
  · intro s hs
    rcases List.mem_map.mp (hmain s hs) with ⟨raw, _, h⟩
    exact ⟨raw, h.symm⟩
  · intro raw hmem hnot hbad
    rcases List.mem_map.mp (hmain raw hbad) with ⟨r, _, h⟩
    exact hnot r h
  · intro db email role createdBy rawToken now
    exact ⟨rfl, rfl⟩
  · intro db userId ip ua rawToken now
    refine ⟨rfl, ?_⟩
    simp [create_session, List.map_append]
  · intro db fs user fn ct content uu dl del now rec dlTok delTok db2 fs2 h
    simp only [store_upload] at h
    split at h
    · simp at h
    · injection h with h1 h2
      injection h1 with h3
      injection h3 with hrec h4
      injection h4 with hdl hdel
      subst hrec
      exact ⟨hdel.symm, rfl⟩

/-- The concrete digest of the witness collaborators always starts with its
marker character. -/
theorem Ew_hashToken_head (r : String) : (hashToken Ew r).data.head? = some '#' := rfl

/-- Claim C9, witness: in a concrete run that creates an invite, consumes it,
creates a session, stores an upload, resolves the session and sweeps, the raw
session token drawn by the sequence is not stored in any secret-token column. -/
theorem c9_witness :
    ("rawSess" ∈ opsSecretRaws opsW) ∧
    "rawSess" ∉ dbSecretFields (execOps Ew cfgSmall cwdW (emptyDB, []) opsW).1 :=
  ⟨by decide,
   (c9_raw_secrets_never_persisted Ew cfgSmall cwdW opsW).2.1 "rawSess" (by decide)
     (fun r h => by
       have h2 := Ew_hashToken_head r
       rw [h] at h2
       exact absurd h2 (by decide))⟩

end ZTransfer
